import Mathlib

/-!
Verification of the backup-restore copy engine.

A shallow embedding of the core of the `backup-restore` repository
(`src/copy.rs`, `src/conflict.rs`, `src/types.rs`) together with proofs of
the specification's claims about it.

The filesystem is modelled as an association list from path strings to file
contents plus a set of created directories.  Rust `Path` operations
(`file_stem`, `extension`, `parent`, `join`) are modelled for ordinary
relative paths (a non-empty final component separated by `/`).  The numeric
rendering `u32::to_string` is modelled by `natDecimal`/`natToString`.
Worker-pool parallelism is modelled by quantifying over the order in which
the copy operations are interleaved: every record-level outcome proved here
holds for every permutation of the plan's file list, hence for every worker
count and schedule.
-/

namespace BackupRestore

/-- The `std::io::ErrorKind` values the modelled code distinguishes. -/
inductive IOErrorKind where
  | notFound
  | alreadyExists
  deriving DecidableEq

/-- A decimal digit character, as produced by `u32::to_string`. -/
def digitChar : Nat → Char
  | 0 => '0'
  | 1 => '1'
  | 2 => '2'
  | 3 => '3'
  | 4 => '4'
  | 5 => '5'
  | 6 => '6'
  | 7 => '7'
  | 8 => '8'
  | 9 => '9'
  | _ => '*'

/-- Numeric value of a decimal digit character (inverse of `digitChar`). -/
def digitVal : Char → Nat
  | '0' => 0
  | '1' => 1
  | '2' => 2
  | '3' => 3
  | '4' => 4
  | '5' => 5
  | '6' => 6
  | '7' => 7
  | '8' => 8
  | '9' => 9
  | _ => 0

/-- Fuelled most-significant-digit-first decimal rendering of a `Nat`. -/
def natDecimalAux : Nat → Nat → List Char
  | 0, _ => []
  | fuel + 1, n =>
    if n < 10 then [digitChar n]
    else natDecimalAux fuel (n / 10) ++ [digitChar (n % 10)]

/-- Decimal digit list of `n`; models `u32::to_string`. -/
def natDecimal (n : Nat) : List Char :=
  natDecimalAux (n + 1) n

/-- Model of Rust `n.to_string()` for the attempt counter. -/
def natToString (n : Nat) : String :=
  String.mk (natDecimal n)

/-- Value of a digit list read back most-significant first. -/
def decimalVal (l : List Char) : Nat :=
  l.foldl (fun acc c => 10 * acc + digitVal c) 0

theorem digitVal_digitChar {d : Nat} (h : d < 10) : digitVal (digitChar d) = d := by
  rcases d with _ | _ | _ | _ | _ | _ | _ | _ | _ | _ | d <;> first | rfl | omega

theorem decimalVal_append_digit (l : List Char) (c : Char) :
    decimalVal (l ++ [c]) = 10 * decimalVal l + digitVal c := by
  simp [decimalVal, List.foldl_append]

theorem decimalVal_natDecimalAux {fuel n : Nat} (h : n < fuel) :
    decimalVal (natDecimalAux fuel n) = n := by
  induction fuel generalizing n with
  | zero => omega
  | succ fuel ih =>
    by_cases hn : n < 10
    · simp [natDecimalAux, hn, decimalVal, digitVal_digitChar hn]
    · have hdiv : n / 10 < fuel := by
        have h1 : n / 10 < n := Nat.div_lt_self (by omega) (by omega)
        omega
      simp [natDecimalAux, hn, decimalVal_append_digit, ih hdiv,
        digitVal_digitChar (Nat.mod_lt n (by omega))]
      omega

theorem decimalVal_natDecimal (n : Nat) : decimalVal (natDecimal n) = n :=
  decimalVal_natDecimalAux (Nat.lt_succ_self n)

theorem natDecimal_injective : Function.Injective natDecimal := by
  intro a b h
  have := decimalVal_natDecimal a
  rw [h, decimalVal_natDecimal] at this
  omega

theorem natToString_injective : Function.Injective natToString := by
  intro a b h
  exact natDecimal_injective (congrArg String.data h)

/-! ## Filesystem model -/

/-- The relevant filesystem state: files (path ↦ contents) and the set of
directories that have been created. -/
structure FSModel where
  files : List (String × String)
  dirs : List String
  deriving DecidableEq

/-- Look a path up in a file association list. -/
def fsFind : List (String × String) → String → Option String
  | [], _ => none
  | (k, v) :: rest, p => if k = p then some v else fsFind rest p

/-- Contents of the file at `p`, if any. -/
def fsGet (fs : FSModel) (p : String) : Option String :=
  fsFind fs.files p

/-- Whether a file exists at `p`. -/
def fsExistsFile (fs : FSModel) (p : String) : Bool :=
  (fsGet fs p).isSome

/-- Create/overwrite the file at `p` with contents `c`. -/
def fsWrite (fs : FSModel) (p c : String) : FSModel :=
  { fs with files := (p, c) :: fs.files }

/-- Delete the file at `p` (`std::fs::remove_file`'s effect). -/
def fsRemoveFile (fs : FSModel) (p : String) : FSModel :=
  { fs with files := fs.files.filter (fun kv => !(kv.1 == p)) }

/-- `std::fs::rename src dst`: fails with `NotFound` if `src` is absent,
otherwise atomically moves the contents of `src` to `dst`, replacing `dst`. -/
def fsRename (fs : FSModel) (src dst : String) : Except IOErrorKind FSModel :=
  match fsGet fs src with
  | none => .error .notFound
  | some c => .ok (fsWrite (fsRemoveFile (fsRemoveFile fs src) dst) dst c)

theorem fsGet_fsWrite (fs : FSModel) (p c q : String) :
    fsGet (fsWrite fs p c) q = if p = q then some c else fsGet fs q := by
  simp [fsGet, fsWrite, fsFind]

theorem fsFind_filter_ne (files : List (String × String)) (p q : String) :
    fsFind (files.filter (fun kv => !(kv.1 == p))) q =
      if p = q then none else fsFind files q := by
  induction files with
  | nil => simp [fsFind]
  | cons kv rest ih =>
    by_cases hq : p = q
    · subst hq
      by_cases hk : kv.1 = p
      · simp [List.filter_cons, hk, ih]
      · simp [List.filter_cons, hk, fsFind, ih]
    · have hqp : ¬ q = p := fun h => hq h.symm
      by_cases hk : kv.1 = p
      · simp [List.filter_cons, hk, fsFind, hq, hqp, ih]
      · simp [List.filter_cons, hk, fsFind, hq, hqp, ih]

theorem fsGet_fsRemoveFile (fs : FSModel) (p q : String) :
    fsGet (fsRemoveFile fs p) q = if p = q then none else fsGet fs q := by
  simp [fsGet, fsRemoveFile, fsFind_filter_ne]

/-- A present path is a key of the file list. -/
theorem mem_keys_of_fsFind {files : List (String × String)} {p c : String}
    (h : fsFind files p = some c) : p ∈ files.map Prod.fst := by
  induction files with
  | nil => simp [fsFind] at h
  | cons kv rest ih =>
    by_cases hk : kv.1 = p
    · simp [hk]
    · simp [fsFind, hk] at h
      simp [ih h]

/-! ## Rust `Path` operations (for ordinary relative paths) -/

/-- Split a character list at the last occurrence of `c`:
`some (before, after)` if `c` occurs, `none` otherwise. -/
def splitAtLastChar (c : Char) : List Char → Option (List Char × List Char)
  | [] => none
  | a :: rest =>
    match splitAtLastChar c rest with
    | some (pre, post) => some (a :: pre, post)
    | none => if a = c then some ([], rest) else none

/-- `Path::file_name` for a path with a normal final component: the part
after the last `/` (the whole path when there is no `/`). -/
def rustFileName (p : String) : String :=
  match splitAtLastChar '/' p.data with
  | none => p
  | some (_, n) => String.mk n

/-- `Path::parent` rendered as a string: the part before the last `/`,
`""` when there is no `/` (Rust's empty parent path). -/
def rustParent (p : String) : String :=
  match splitAtLastChar '/' p.data with
  | none => ""
  | some (d, _) => String.mk d

/-- Split a file name into Rust's `(file_stem, extension)`: the parts
before and after the last `.`, with a name whose only `.` is leading
(a hidden file) having no extension. -/
def rustSplitName (name : String) : String × Option String :=
  match splitAtLastChar '.' name.data with
  | none => (name, none)
  | some ([], _) => (name, none)
  | some (s, e) => (String.mk s, some (String.mk e))

/-- `Path::file_stem().unwrap_or_default()` of a path. -/
def rustFileStem (p : String) : String :=
  (rustSplitName (rustFileName p)).1

/-- `Path::extension()` of a path. -/
def rustExtension (p : String) : Option String :=
  (rustSplitName (rustFileName p)).2

/-- `parent.join(name)` for a parent that does not end in `/`. -/
def pathJoin (parent name : String) : String :=
  if parent = "" then name else parent ++ "/" ++ name

/-! ## Data model (`src/types.rs`) -/

/-- The 8 user-facing XDG directories (`XdgDir` in `types.rs`). -/
inductive XdgDir where
  | desktop
  | documents
  | downloads
  | music
  | pictures
  | publicShare
  | templates
  | videos
  deriving DecidableEq

/-- A single file copy operation (`CopyOp`). -/
structure CopyOp where
  source : String
  dest : String
  size : Nat
  xdg_dir : XdgDir
  deriving DecidableEq

/-- A directory that needs to be created (`DirOp`). -/
structure DirOp where
  dest : String
  deriving DecidableEq

/-- The full copy plan (`CopyPlan`). -/
structure CopyPlan where
  dirs : List DirOp
  files : List CopyOp
  total_bytes : Nat
  deriving DecidableEq

/-- A successfully copied file (`CopiedFile`). -/
structure CopiedFile where
  source : String
  dest : String
  size : Nat
  xdg_dir : XdgDir
  deriving DecidableEq

/-- A conflict: dest existed, so the contents went to a `.restore` path
(`Conflict`). -/
structure Conflict where
  restore_path : String
  original_path : String
  size : Nat
  xdg_dir : XdgDir
  deriving DecidableEq

/-- An error during copy of a single file (`CopyError`). -/
structure CopyError where
  source : String
  dest : String
  error : IOErrorKind
  xdg_dir : XdgDir
  deriving DecidableEq

/-- Results of the copy operation (`CopyResult`). -/
structure CopyResult where
  copied : List CopiedFile
  conflicts : List Conflict
  errors : List CopyError
  bytes_copied : Nat
  deriving DecidableEq

/-- The aggregate every run starts from. -/
def emptyResult : CopyResult :=
  { copied := [], conflicts := [], errors := [], bytes_copied := 0 }

/-! ## Copy engine (`src/copy.rs`) -/

/-- `try_copy_atomic`: open the source, then exclusively create the
destination (`File::create_new`, which fails with `AlreadyExists` when the
destination is occupied) and copy the contents into it, returning the byte
count.  The source is opened first, so a missing source reports `NotFound`
even when the destination is also occupied. -/
def try_copy_atomic (fs : FSModel) (source dest : String) :
    Except IOErrorKind (FSModel × Nat) :=
  match fsGet fs source with
  | none => .error .notFound
  | some content =>
    if fsExistsFile fs dest then .error .alreadyExists
    else .ok (fsWrite fs dest content, content.length)

/-- `make_restore_name`: `stem.restore`, `stem.restore.n`, each followed by
`.ext` when an extension is present. -/
def make_restore_name (stem : String) (ext : Option String) (n : Option Nat) :
    String :=
  let name :=
    match n with
    | none => stem ++ ".restore"
    | some n => stem ++ ".restore." ++ natToString n
  match ext with
  | none => name
  | some e => name ++ "." ++ e

/-- The attempt-`n` fallback path tried by `write_to_restore_path`
(`parent.join(make_restore_name(stem, ext, Some(n)))`). -/
def restoreCandidate (parent stem : String) (ext : Option String) (n : Nat) :
    String :=
  pathJoin parent (make_restore_name stem ext (some n))

/-- The `for n in 2u32..` retry loop of `write_to_restore_path`.  The loop
in the source is unbounded and ends in `unreachable!()`; here it carries
fuel, and `restoreLoop_ok` proves the fuel-exhausted branch is never taken
for the fuel `write_to_restore_path` supplies. -/
def restoreLoop (fs : FSModel) (source parent stem : String)
    (ext : Option String) : Nat → Nat → Except IOErrorKind (String × FSModel × Nat)
  | _, 0 => .error .alreadyExists
  | n, fuel + 1 =>
    let candidate := restoreCandidate parent stem ext n
    match try_copy_atomic fs source candidate with
    | .ok (fs', bytes) => .ok (candidate, fs', bytes)
    | .error .alreadyExists => restoreLoop fs source parent stem ext (n + 1) fuel
    | .error e => .error e

/-- `write_to_restore_path`: try `stem.restore[.ext]`, then
`stem.restore.n[.ext]` for `n = 2, 3, …` until an exclusive create
succeeds; any error other than `AlreadyExists` aborts.
(`preserve_permissions` is metadata-only and has no effect in this model.) -/
def write_to_restore_path (fs : FSModel) (source original_dest : String) :
    Except IOErrorKind (String × FSModel × Nat) :=
  let stem := rustFileStem original_dest
  let ext := rustExtension original_dest
  let parent := rustParent original_dest
  let candidate := pathJoin parent (make_restore_name stem ext none)
  match try_copy_atomic fs source candidate with
  | .ok (fs', bytes) => .ok (candidate, fs', bytes)
  | .error .alreadyExists =>
    restoreLoop fs source parent stem ext 2 (fs.files.length + 1)
  | .error e => .error e

/-- `copy_file`: one worker's handling of a single `CopyOp`, updating the
shared state — filesystem, mutex-guarded `CopyResult`, and the progress-bar
byte counter. -/
def copy_file (op : CopyOp) (fs : FSModel) (r : CopyResult) (progress : Nat) :
    FSModel × CopyResult × Nat :=
  match try_copy_atomic fs op.source op.dest with
  | .ok (fs', bytes) =>
    (fs',
     { r with
       bytes_copied := r.bytes_copied + bytes,
       copied := r.copied ++
         [{ source := op.source, dest := op.dest, size := bytes,
            xdg_dir := op.xdg_dir }] },
     progress + bytes)
  | .error .alreadyExists =>
    match write_to_restore_path fs op.source op.dest with
    | .ok (restore_path, fs', bytes) =>
      (fs',
       { r with
         bytes_copied := r.bytes_copied + bytes,
         conflicts := r.conflicts ++
           [{ restore_path := restore_path, original_path := op.dest,
              size := bytes, xdg_dir := op.xdg_dir }] },
       progress + bytes)
    | .error e =>
      (fs,
       { r with
         errors := r.errors ++
           [{ source := op.source, dest := op.dest, error := e,
              xdg_dir := op.xdg_dir }] },
       progress + op.size)
  | .error e =>
    (fs,
     { r with
       errors := r.errors ++
         [{ source := op.source, dest := op.dest, error := e,
            xdg_dir := op.xdg_dir }] },
     progress + op.size)

/-- `fs::create_dir_all`: fails when a file occupies the path, otherwise
records the directory as created. -/
def create_dir_all (fs : FSModel) (dest : String) : Except IOErrorKind FSModel :=
  if fsExistsFile fs dest then .error .alreadyExists
  else .ok { fs with dirs := dest :: fs.dirs }

/-- The serial directory-creation loop at the top of `execute_plan`; the
`?` operator propagates the first failure immediately. -/
def createDirs (fs : FSModel) : List DirOp → Except IOErrorKind FSModel
  | [] => .ok fs
  | d :: rest =>
    match create_dir_all fs d.dest with
    | .error e => .error e
    | .ok fs' => createDirs fs' rest

/-- Sequential processing of copy operations in the given interleaving
order, threading the shared state through `copy_file`. -/
def runOps (fs : FSModel) (r : CopyResult) (progress : Nat) :
    List CopyOp → FSModel × CopyResult × Nat
  | [] => (fs, r, progress)
  | op :: rest =>
    let s := copy_file op fs r progress
    runOps s.1 s.2.1 s.2.2 rest

/-- `execute_plan`: create all directories first (aborting the run on the
first failure), then process the file operations.  The worker pool of
`jobs.max(1)` threads is modelled by the explicit interleaving `sched`;
the theorems below quantify over every permutation of `plan.files`, so
they cover every worker count and schedule. -/
def execute_plan (fs : FSModel) (plan : CopyPlan) (jobs : Nat)
    (sched : List CopyOp) : Except IOErrorKind (FSModel × CopyResult × Nat) :=
  let _pool_threads := max jobs 1
  match createDirs fs plan.dirs with
  | .error e => .error e
  | .ok fs' => .ok (runOps fs' emptyResult 0 sched)

/-! ## Conflict resolver (`src/conflict.rs`) -/

/-- What to do with a conflict (`Resolution`). -/
inductive Resolution where
  /-- Replace original with the `.restore` version. -/
  | overwrite
  /-- Delete the `.restore` file, keeping the original. -/
  | keepOriginal
  /-- Leave both files in place. -/
  | leaveAsIs
  deriving DecidableEq

/-- `apply_resolution`: apply a resolution to a single conflict. -/
def apply_resolution (fs : FSModel) (conflict : Conflict)
    (resolution : Resolution) : Except IOErrorKind FSModel :=
  match resolution with
  | .overwrite => fsRename fs conflict.restore_path conflict.original_path
  | .keepOriginal =>
    match fsGet fs conflict.restore_path with
    | none => .error .notFound
    | some _ => .ok (fsRemoveFile fs conflict.restore_path)
  | .leaveAsIs => .ok fs

/-! ## Bookkeeping lemmas for the engine -/

/-- `copy_file` only appends to the aggregate and adds to the counters:
its effect on an arbitrary starting aggregate is the effect on the empty
aggregate, concatenated. -/
theorem copy_file_frame (op : CopyOp) (fs : FSModel) (r : CopyResult) (p : Nat) :
    copy_file op fs r p =
      ((copy_file op fs emptyResult 0).1,
       { copied := r.copied ++ (copy_file op fs emptyResult 0).2.1.copied,
         conflicts := r.conflicts ++ (copy_file op fs emptyResult 0).2.1.conflicts,
         errors := r.errors ++ (copy_file op fs emptyResult 0).2.1.errors,
         bytes_copied :=
           r.bytes_copied + (copy_file op fs emptyResult 0).2.1.bytes_copied },
       p + (copy_file op fs emptyResult 0).2.2) := by
  cases h : try_copy_atomic fs op.source op.dest with
  | ok v => simp [copy_file, h, emptyResult]
  | error e =>
    cases e with
    | notFound => simp [copy_file, h, emptyResult]
    | alreadyExists =>
      cases hw : write_to_restore_path fs op.source op.dest with
      | ok w => simp [copy_file, h, hw, emptyResult]
      | error e2 => simp [copy_file, h, hw, emptyResult]

/-- `runOps` likewise only appends to the aggregate. -/
theorem runOps_frame (ops : List CopyOp) (fs : FSModel) (r : CopyResult) (p : Nat) :
    runOps fs r p ops =
      ((runOps fs emptyResult 0 ops).1,
       { copied := r.copied ++ (runOps fs emptyResult 0 ops).2.1.copied,
         conflicts := r.conflicts ++ (runOps fs emptyResult 0 ops).2.1.conflicts,
         errors := r.errors ++ (runOps fs emptyResult 0 ops).2.1.errors,
         bytes_copied :=
           r.bytes_copied + (runOps fs emptyResult 0 ops).2.1.bytes_copied },
       p + (runOps fs emptyResult 0 ops).2.2) := by
  induction ops generalizing fs r p with
  | nil => simp [runOps, emptyResult]
  | cons op rest ih =>
    simp only [runOps]
    rw [copy_file_frame op fs r p]
    rw [ih (copy_file op fs emptyResult 0).1
        { copied := r.copied ++ (copy_file op fs emptyResult 0).2.1.copied,
          conflicts := r.conflicts ++ (copy_file op fs emptyResult 0).2.1.conflicts,
          errors := r.errors ++ (copy_file op fs emptyResult 0).2.1.errors,
          bytes_copied :=
            r.bytes_copied + (copy_file op fs emptyResult 0).2.1.bytes_copied }
        (p + (copy_file op fs emptyResult 0).2.2)]
    rw [ih (copy_file op fs emptyResult 0).1 (copy_file op fs emptyResult 0).2.1
        (copy_file op fs emptyResult 0).2.2]
    simp [List.append_assoc, Nat.add_assoc]

/-- Processing a concatenation processes the pieces in order. -/
theorem runOps_append (xs ys : List CopyOp) (fs : FSModel) (r : CopyResult) (p : Nat) :
    runOps fs r p (xs ++ ys) =
      runOps (runOps fs r p xs).1 (runOps fs r p xs).2.1 (runOps fs r p xs).2.2 ys := by
  induction xs generalizing fs r p with
  | nil => simp [runOps]
  | cons op rest ih =>
    simp only [List.cons_append, runOps, List.append_eq]
    rw [ih]

/-- Every branch of `copy_file` appends exactly one terminal record. -/
theorem copy_file_counts (op : CopyOp) (fs : FSModel) :
    (copy_file op fs emptyResult 0).2.1.copied.length +
    (copy_file op fs emptyResult 0).2.1.conflicts.length +
    (copy_file op fs emptyResult 0).2.1.errors.length = 1 := by
  cases h : try_copy_atomic fs op.source op.dest with
  | ok v => simp [copy_file, h, emptyResult]
  | error e =>
    cases e with
    | notFound => simp [copy_file, h, emptyResult]
    | alreadyExists =>
      cases hw : write_to_restore_path fs op.source op.dest with
      | ok w => simp [copy_file, h, hw, emptyResult]
      | error e2 => simp [copy_file, h, hw, emptyResult]

/-- A run over `ops` produces exactly `ops.length` terminal records. -/
theorem runOps_counts (ops : List CopyOp) (fs : FSModel) :
    (runOps fs emptyResult 0 ops).2.1.copied.length +
    (runOps fs emptyResult 0 ops).2.1.conflicts.length +
    (runOps fs emptyResult 0 ops).2.1.errors.length = ops.length := by
  induction ops generalizing fs with
  | nil => simp [runOps, emptyResult]
  | cons op rest ih =>
    simp only [runOps]
    rw [runOps_frame rest]
    have h1 := copy_file_counts op fs
    have h2 := ih (copy_file op fs emptyResult 0).1
    simp only [List.length_append, List.length_cons]
    simp only at h1 h2 ⊢
    omega

/-- Every branch of `copy_file` adds its new record's size to
`bytes_copied` for successes and conflicts, and nothing for errors. -/
theorem copy_file_bytes (op : CopyOp) (fs : FSModel) :
    (copy_file op fs emptyResult 0).2.1.bytes_copied =
      ((copy_file op fs emptyResult 0).2.1.copied.map CopiedFile.size).sum +
      ((copy_file op fs emptyResult 0).2.1.conflicts.map Conflict.size).sum := by
  cases h : try_copy_atomic fs op.source op.dest with
  | ok v => simp [copy_file, h, emptyResult]
  | error e =>
    cases e with
    | notFound => simp [copy_file, h, emptyResult]
    | alreadyExists =>
      cases hw : write_to_restore_path fs op.source op.dest with
      | ok w => simp [copy_file, h, hw, emptyResult]
      | error e2 => simp [copy_file, h, hw, emptyResult]

/-- Over a whole run, `bytes_copied` is the sum of the success record sizes
plus the conflict record sizes. -/
theorem runOps_bytes (ops : List CopyOp) (fs : FSModel) :
    (runOps fs emptyResult 0 ops).2.1.bytes_copied =
      ((runOps fs emptyResult 0 ops).2.1.copied.map CopiedFile.size).sum +
      ((runOps fs emptyResult 0 ops).2.1.conflicts.map Conflict.size).sum := by
  induction ops generalizing fs with
  | nil => simp [runOps, emptyResult]
  | cons op rest ih =>
    simp only [runOps]
    rw [runOps_frame rest]
    have h1 := copy_file_bytes op fs
    have h2 := ih (copy_file op fs emptyResult 0).1
    simp only [List.map_append, List.sum_append]
    simp only at h1 h2 ⊢
    omega

/-! ## Restore-name machinery -/

theorem string_mid_cancel {A B x y : String} (h : A ++ x ++ B = A ++ y ++ B) :
    x = y := by
  apply String.ext
  have hd := congrArg String.data h
  simp only [String.data_append] at hd
  exact List.append_cancel_left (List.append_cancel_right hd)

theorem pathJoin_append (parent x y : String) :
    pathJoin parent (x ++ y) = pathJoin parent x ++ y := by
  by_cases hp : parent = "" <;> simp [pathJoin, hp, String.append_assoc]

theorem make_restore_name_some (stem : String) (ext : Option String) (n : Nat) :
    make_restore_name stem ext (some n) =
      (stem ++ ".restore.") ++ natToString n ++
        (match ext with | none => "" | some e => "." ++ e) := by
  cases ext <;> simp [make_restore_name, String.append_assoc]

/-- The candidate sequence is injective over attempt numbers. -/
theorem restoreCandidate_injective (parent stem : String) (ext : Option String) :
    Function.Injective (restoreCandidate parent stem ext) := by
  intro a b h
  apply natToString_injective
  cases ext with
  | none =>
    simp only [restoreCandidate, make_restore_name_some, pathJoin_append] at h
    exact string_mid_cancel h
  | some e =>
    simp only [restoreCandidate, make_restore_name_some, pathJoin_append] at h
    exact string_mid_cancel h

/-- On a finite filesystem some attempt within the first
`fs.files.length + 1` candidates is unused (pigeonhole). -/
theorem exists_free_candidate (fs : FSModel) (parent stem : String)
    (ext : Option String) (n : Nat) :
    ∃ i, i < fs.files.length + 1 ∧
      fsExistsFile fs (restoreCandidate parent stem ext (n + i)) = false := by
  by_contra hcon
  push_neg at hcon
  have hall : ∀ i, i < fs.files.length + 1 →
      restoreCandidate parent stem ext (n + i) ∈ fs.files.map Prod.fst := by
    intro i hi
    have h1 := hcon i hi
    have h2 : fsExistsFile fs (restoreCandidate parent stem ext (n + i)) = true := by
      cases hb : fsExistsFile fs (restoreCandidate parent stem ext (n + i))
      · exact absurd hb h1
      · rfl
    have h3 : (fsGet fs (restoreCandidate parent stem ext (n + i))).isSome = true := h2
    obtain ⟨c, hc⟩ := Option.isSome_iff_exists.mp h3
    exact mem_keys_of_fsFind hc
  have hnodup : ((List.range (fs.files.length + 1)).map
      (fun i => restoreCandidate parent stem ext (n + i))).Nodup := by
    refine List.Nodup.map ?_ (List.nodup_range _)
    intro i j hij
    have := restoreCandidate_injective parent stem ext hij
    omega
  have hsub : ∀ x ∈ (List.range (fs.files.length + 1)).map
      (fun i => restoreCandidate parent stem ext (n + i)),
      x ∈ fs.files.map Prod.fst := by
    intro x hx
    rw [List.mem_map] at hx
    obtain ⟨i, hi, rfl⟩ := hx
    exact hall i (List.mem_range.mp hi)
  have hcard1 : ((List.range (fs.files.length + 1)).map
      (fun i => restoreCandidate parent stem ext (n + i))).toFinset.card =
      fs.files.length + 1 := by
    rw [List.toFinset_card_of_nodup hnodup]
    simp
  have hcard2 : ((List.range (fs.files.length + 1)).map
      (fun i => restoreCandidate parent stem ext (n + i))).toFinset.card ≤
      (fs.files.map Prod.fst).toFinset.card := by
    apply Finset.card_le_card
    intro x hx
    rw [List.mem_toFinset] at hx
    rw [List.mem_toFinset]
    exact hsub x hx
  have hcard3 : (fs.files.map Prod.fst).toFinset.card ≤ fs.files.length := by
    calc (fs.files.map Prod.fst).toFinset.card
        ≤ (fs.files.map Prod.fst).length := List.toFinset_card_le _
      _ = fs.files.length := by simp
  omega

/-- The retry loop, given enough fuel to reach a free candidate, succeeds
with an unused name (hence the source loop's `unreachable!()` is never
reached and the loop cannot fail on repeated `AlreadyExists`). -/
theorem restoreLoop_ok (fs : FSModel) (source parent stem : String)
    (ext : Option String) (content : String)
    (hsrc : fsGet fs source = some content) :
    ∀ fuel n,
      (∃ i, i < fuel ∧
        fsExistsFile fs (restoreCandidate parent stem ext (n + i)) = false) →
      ∃ a, n ≤ a ∧ fsExistsFile fs (restoreCandidate parent stem ext a) = false ∧
        restoreLoop fs source parent stem ext n fuel =
          .ok (restoreCandidate parent stem ext a,
               fsWrite fs (restoreCandidate parent stem ext a) content,
               content.length) := by
  intro fuel
  induction fuel with
  | zero =>
    intro n h
    obtain ⟨i, hi, _⟩ := h
    omega
  | succ fuel ih =>
    intro n hex
    by_cases hfree : fsExistsFile fs (restoreCandidate parent stem ext n) = false
    · refine ⟨n, Nat.le_refl n, hfree, ?_⟩
      simp [restoreLoop, try_copy_atomic, hsrc, hfree]
    · have hocc : fsExistsFile fs (restoreCandidate parent stem ext n) = true := by
        cases hb : fsExistsFile fs (restoreCandidate parent stem ext n)
        · exact absurd hb hfree
        · rfl
      obtain ⟨i, hi, hfreei⟩ := hex
      have hi0 : i ≠ 0 := by
        rintro rfl
        exact hfree (by simpa using hfreei)
      have hfreei' : fsExistsFile fs
          (restoreCandidate parent stem ext (n + 1 + (i - 1))) = false := by
        have hidx : n + 1 + (i - 1) = n + i := by omega
        rw [hidx]
        exact hfreei
      obtain ⟨a, ha1, ha2, ha3⟩ := ih (n + 1) ⟨i - 1, by omega, hfreei'⟩
      refine ⟨a, by omega, ha2, ?_⟩
      simp [restoreLoop, try_copy_atomic, hsrc, hocc, ha3]

/-- Whenever the source file is readable, `write_to_restore_path` succeeds,
writing the source contents to a path that did not previously exist. -/
theorem write_to_restore_path_ok (fs : FSModel) (source original_dest content : String)
    (hsrc : fsGet fs source = some content) :
    ∃ rp, fsExistsFile fs rp = false ∧
      write_to_restore_path fs source original_dest =
        .ok (rp, fsWrite fs rp content, content.length) := by
  by_cases h1 : fsExistsFile fs
      (pathJoin (rustParent original_dest)
        (make_restore_name (rustFileStem original_dest)
          (rustExtension original_dest) none)) = false
  · refine ⟨_, h1, ?_⟩
    simp [write_to_restore_path, try_copy_atomic, hsrc, h1]
  · have h1t : fsExistsFile fs
        (pathJoin (rustParent original_dest)
          (make_restore_name (rustFileStem original_dest)
            (rustExtension original_dest) none)) = true := by
      cases hb : fsExistsFile fs
          (pathJoin (rustParent original_dest)
            (make_restore_name (rustFileStem original_dest)
              (rustExtension original_dest) none))
      · exact absurd hb h1
      · rfl
    obtain ⟨i, hi, hfree⟩ := exists_free_candidate fs (rustParent original_dest)
      (rustFileStem original_dest) (rustExtension original_dest) 2
    obtain ⟨a, _, ha2, ha3⟩ := restoreLoop_ok fs source (rustParent original_dest)
      (rustFileStem original_dest) (rustExtension original_dest) content hsrc
      (fs.files.length + 1) 2 ⟨i, hi, hfree⟩
    refine ⟨_, ha2, ?_⟩
    simp [write_to_restore_path, try_copy_atomic, hsrc, h1t, ha3]

/-! ## Concrete scenarios from the spec's testable properties -/

/-- A backup source file plus a destination tree where only
`Pictures/photo.jpg` pre-exists. -/
def photoFS : FSModel :=
  { files := [("backup/photo.jpg", "new"), ("Pictures/photo.jpg", "old")],
    dirs := [] }

/-- The copy operation targeting the occupied `Pictures/photo.jpg`. -/
def photoOp : CopyOp :=
  { source := "backup/photo.jpg", dest := "Pictures/photo.jpg", size := 3,
    xdg_dir := XdgDir.pictures }

/-- Both `Pictures/photo.jpg` and `Pictures/photo.restore.jpg` pre-exist. -/
def photoCollisionFS : FSModel :=
  { files := [("backup/photo.jpg", "data3"), ("Pictures/photo.jpg", "data1"),
              ("Pictures/photo.restore.jpg", "data2")],
    dirs := [] }

/-- The copy operation for the double-collision scenario. -/
def photoCollisionOp : CopyOp :=
  { source := "backup/photo.jpg", dest := "Pictures/photo.jpg", size := 5,
    xdg_dir := XdgDir.pictures }

/-! ## The claims -/

/-- C1: for every plan and every worker count/schedule (modelled as an
arbitrary permutation `sched` of the plan's copy operations, covering every
interleaving any worker count from 1 through N can produce), the aggregate
returned by `execute_plan` holds exactly one terminal record per copy
operation: `copied + conflicts + failures = N`. -/
theorem C1_exactly_one_terminal_record_per_op (fs fs' : FSModel) (plan : CopyPlan)
    (jobs : Nat) (sched : List CopyOp) (hperm : sched.Perm plan.files)
    (r : CopyResult) (prog : Nat)
    (hexec : execute_plan fs plan jobs sched = .ok (fs', r, prog)) :
    r.copied.length + r.conflicts.length + r.errors.length = plan.files.length := by
  simp only [execute_plan] at hexec
  cases hd : createDirs fs plan.dirs with
  | error e =>
    rw [hd] at hexec
    exact absurd hexec (by simp)
  | ok fs0 =>
    rw [hd] at hexec
    have h2 : runOps fs0 emptyResult 0 sched = (fs', r, prog) := by
      simpa using hexec
    have h3 := runOps_counts sched fs0
    rw [h2] at h3
    simp only at h3
    rw [← hperm.length_eq]
    exact h3

/-- Witness for C1: a two-operation plan (one success, one missing source)
yields two terminal records. -/
theorem C1_exactly_one_terminal_record_per_op_witness :
    ([photoOp, { source := "backup/gone.txt", dest := "home/gone.txt",
                 size := 9, xdg_dir := XdgDir.documents }] : List CopyOp).Perm
      [photoOp, { source := "backup/gone.txt", dest := "home/gone.txt",
                  size := 9, xdg_dir := XdgDir.documents }] ∧
    execute_plan photoFS
        { dirs := [],
          files := [photoOp, { source := "backup/gone.txt", dest := "home/gone.txt",
                               size := 9, xdg_dir := XdgDir.documents }],
          total_bytes := 12 } 1
        [photoOp, { source := "backup/gone.txt", dest := "home/gone.txt",
                    size := 9, xdg_dir := XdgDir.documents }] =
      .ok (fsWrite photoFS "Pictures/photo.restore.jpg" "new",
           { copied := [],
             conflicts := [{ restore_path := "Pictures/photo.restore.jpg",
                             original_path := "Pictures/photo.jpg", size := 3,
                             xdg_dir := XdgDir.pictures }],
             errors := [{ source := "backup/gone.txt", dest := "home/gone.txt",
                          error := IOErrorKind.notFound,
                          xdg_dir := XdgDir.documents }],
             bytes_copied := 3 }, 12) ∧
    ((({ copied := [],
         conflicts := [{ restore_path := "Pictures/photo.restore.jpg",
                         original_path := "Pictures/photo.jpg", size := 3,
                         xdg_dir := XdgDir.pictures }],
         errors := [{ source := "backup/gone.txt", dest := "home/gone.txt",
                      error := IOErrorKind.notFound,
                      xdg_dir := XdgDir.documents }],
         bytes_copied := 3 } : CopyResult)).copied.length +
      (({ copied := [],
          conflicts := [{ restore_path := "Pictures/photo.restore.jpg",
                          original_path := "Pictures/photo.jpg", size := 3,
                          xdg_dir := XdgDir.pictures }],
          errors := [{ source := "backup/gone.txt", dest := "home/gone.txt",
                       error := IOErrorKind.notFound,
                       xdg_dir := XdgDir.documents }],
          bytes_copied := 3 } : CopyResult)).conflicts.length +
      (({ copied := [],
          conflicts := [{ restore_path := "Pictures/photo.restore.jpg",
                          original_path := "Pictures/photo.jpg", size := 3,
                          xdg_dir := XdgDir.pictures }],
          errors := [{ source := "backup/gone.txt", dest := "home/gone.txt",
                       error := IOErrorKind.notFound,
                       xdg_dir := XdgDir.documents }],
          bytes_copied := 3 } : CopyResult)).errors.length = 2) := by
  refine ⟨List.Perm.refl _, rfl, ?_⟩
  exact C1_exactly_one_terminal_record_per_op photoFS
    (fsWrite photoFS "Pictures/photo.restore.jpg" "new")
    { dirs := [],
      files := [photoOp, { source := "backup/gone.txt", dest := "home/gone.txt",
                           size := 9, xdg_dir := XdgDir.documents }],
      total_bytes := 12 } 1
    [photoOp, { source := "backup/gone.txt", dest := "home/gone.txt",
                size := 9, xdg_dir := XdgDir.documents }]
    (List.Perm.refl _) _ 12 rfl

/-- C2: the Restore-Name Generator's attempt-1 candidate is
`p/s.restore[.e]` and its attempt-n candidate (n ≥ 2) is
`p/s.restore.n[.e]`; an extensionless name like `Makefile` yields
`Makefile.restore` with no trailing dot. -/
theorem C2_restore_name_format (p s e : String) (n : Nat) (hp : p ≠ "")
    (hn : 2 ≤ n) :
    pathJoin p (make_restore_name s none none) = p ++ "/" ++ s ++ ".restore" ∧
    pathJoin p (make_restore_name s (some e) none) =
      p ++ "/" ++ s ++ ".restore" ++ "." ++ e ∧
    pathJoin p (make_restore_name s none (some n)) =
      p ++ "/" ++ s ++ ".restore." ++ natToString n ∧
    pathJoin p (make_restore_name s (some e) (some n)) =
      p ++ "/" ++ s ++ ".restore." ++ natToString n ++ "." ++ e ∧
    make_restore_name "Makefile" none none = "Makefile.restore" := by
  refine ⟨?_, ?_, ?_, ?_, rfl⟩ <;>
    simp [make_restore_name, pathJoin, hp, String.append_assoc]

/-- Witness for C2 at `p = Pictures`, `s = photo`, `e = jpg`, `n = 2`. -/
theorem C2_restore_name_format_witness :
    ("Pictures" : String) ≠ "" ∧ 2 ≤ 2 ∧
    pathJoin "Pictures" (make_restore_name "photo" (some "jpg") none) =
      "Pictures" ++ "/" ++ "photo" ++ ".restore" ++ "." ++ "jpg" := by
  refine ⟨by decide, by decide, ?_⟩
  exact (C2_restore_name_format "Pictures" "photo" "jpg" 2 (by decide)
    (by decide)).2.1

/-- C3: an operation whose destination is occupied records a conflict
whose restore path differs from the destination and did not previously
exist, and the destination's contents are unchanged byte-for-byte; with
only `photo.jpg` pre-existing the restore path is `photo.restore.jpg`. -/
theorem C3_conflict_fresh_restore_preserves_original (fs : FSModel) (op : CopyOp)
    (r : CopyResult) (p : Nat) (origContent content : String)
    (hdest : fsGet fs op.dest = some origContent)
    (hsrc : fsGet fs op.source = some content) :
    (∃ rp, rp ≠ op.dest ∧ fsExistsFile fs rp = false ∧
      copy_file op fs r p =
        (fsWrite fs rp content,
         { r with
           bytes_copied := r.bytes_copied + content.length,
           conflicts := r.conflicts ++
             [{ restore_path := rp, original_path := op.dest,
                size := content.length, xdg_dir := op.xdg_dir }] },
         p + content.length) ∧
      fsGet (fsWrite fs rp content) op.dest = some origContent) ∧
    (copy_file photoOp photoFS emptyResult 0).2.1.conflicts =
      [{ restore_path := "Pictures/photo.restore.jpg",
         original_path := "Pictures/photo.jpg", size := 3,
         xdg_dir := XdgDir.pictures }] := by
  constructor
  · have htry : try_copy_atomic fs op.source op.dest = .error .alreadyExists := by
      simp [try_copy_atomic, hsrc, fsExistsFile, hdest]
    obtain ⟨rp, hfree, hw⟩ := write_to_restore_path_ok fs op.source op.dest content hsrc
    have hne : rp ≠ op.dest := by
      intro hcontra
      rw [hcontra] at hfree
      simp [fsExistsFile, hdest] at hfree
    refine ⟨rp, hne, hfree, ?_, ?_⟩
    · simp [copy_file, htry, hw]
    · rw [fsGet_fsWrite]
      simp [hne, hdest]
  · rfl

/-- Witness for C3 at the `photo.jpg` scenario. -/
theorem C3_conflict_fresh_restore_preserves_original_witness :
    fsGet photoFS photoOp.dest = some "old" ∧
    fsGet photoFS photoOp.source = some "new" ∧
    (copy_file photoOp photoFS emptyResult 0).2.1.conflicts =
      [{ restore_path := "Pictures/photo.restore.jpg",
         original_path := "Pictures/photo.jpg", size := 3,
         xdg_dir := XdgDir.pictures }] := by
  refine ⟨by decide, by decide, ?_⟩
  exact (C3_conflict_fresh_restore_preserves_original photoFS photoOp emptyResult 0
    "old" "new" (by decide) (by decide)).2

/-- C4: a directory-creation failure aborts the whole run before any
copy is attempted — for every file list and every schedule the result is
the error, and no copy operation is executed. -/
theorem C4_dir_failure_aborts_run (fs : FSModel) (dirs : List DirOp)
    (e : IOErrorKind) (hfail : createDirs fs dirs = .error e) :
    ∀ (files : List CopyOp) (total jobs : Nat) (sched : List CopyOp),
      execute_plan fs { dirs := dirs, files := files, total_bytes := total }
        jobs sched = .error e := by
  intro files total jobs sched
  simp [execute_plan, hfail]

/-- Witness for C4: a file blocking `home/Documents` aborts a one-file plan. -/
theorem C4_dir_failure_aborts_run_witness :
    createDirs { files := [("home/Documents", "blocker")], dirs := [] }
      [{ dest := "home/Documents" }] = .error IOErrorKind.alreadyExists ∧
    execute_plan { files := [("home/Documents", "blocker")], dirs := [] }
      { dirs := [{ dest := "home/Documents" }], files := [photoOp],
        total_bytes := 3 } 1 [photoOp] = .error IOErrorKind.alreadyExists := by
  refine ⟨rfl, ?_⟩
  exact C4_dir_failure_aborts_run { files := [("home/Documents", "blocker")], dirs := [] }
    [{ dest := "home/Documents" }] IOErrorKind.alreadyExists rfl [photoOp] 3 1 [photoOp]

/-- C5: with a readable source, the restore retry loop always
terminates with a previously unused name on any finite filesystem (the
candidate sequence being injective over attempt numbers), and with both
`photo.jpg` and `photo.restore.jpg` pre-existing the conflict's restore
path is `photo.restore.2.jpg`. -/
theorem C5_retry_terminates_with_unused_name (fs : FSModel)
    (source original_dest content : String)
    (hsrc : fsGet fs source = some content) :
    (∃ rp, fsExistsFile fs rp = false ∧
      write_to_restore_path fs source original_dest =
        .ok (rp, fsWrite fs rp content, content.length)) ∧
    Function.Injective (restoreCandidate (rustParent original_dest)
      (rustFileStem original_dest) (rustExtension original_dest)) ∧
    (copy_file photoCollisionOp photoCollisionFS emptyResult 0).2.1.conflicts =
      [{ restore_path := "Pictures/photo.restore.2.jpg",
         original_path := "Pictures/photo.jpg", size := 5,
         xdg_dir := XdgDir.pictures }] :=
  ⟨write_to_restore_path_ok fs source original_dest content hsrc,
   restoreCandidate_injective _ _ _, rfl⟩

/-- Witness for C5 at the double-collision scenario. -/
theorem C5_retry_terminates_with_unused_name_witness :
    fsGet photoCollisionFS "backup/photo.jpg" = some "data3" ∧
    (copy_file photoCollisionOp photoCollisionFS emptyResult 0).2.1.conflicts =
      [{ restore_path := "Pictures/photo.restore.2.jpg",
         original_path := "Pictures/photo.jpg", size := 5,
         xdg_dir := XdgDir.pictures }] := by
  refine ⟨by decide, ?_⟩
  exact (C5_retry_terminates_with_unused_name photoCollisionFS "backup/photo.jpg"
    "Pictures/photo.jpg" "data3" (by decide)).2.2

/-- C6 counterexample: the claim says the progress counter advances by
the operation's declared size in all three outcome cases.  On a successful
copy of a 3-byte source declared as 5 bytes, the code advances the counter
by the 3 bytes actually copied, not the declared 5. -/
theorem C6_progress_uses_actual_bytes_counterexample :
    (copy_file { source := "backup/photo.jpg", dest := "home/photo.jpg",
                 size := 5, xdg_dir := XdgDir.pictures }
      photoFS emptyResult 0).2.2 = 3 ∧
    ({ source := "backup/photo.jpg", dest := "home/photo.jpg",
       size := 5, xdg_dir := XdgDir.pictures } : CopyOp).size = 5 ∧
    (copy_file { source := "backup/photo.jpg", dest := "home/photo.jpg",
                 size := 5, xdg_dir := XdgDir.pictures }
      photoFS emptyResult 0).2.2 ≠
      0 + ({ source := "backup/photo.jpg", dest := "home/photo.jpg",
             size := 5, xdg_dir := XdgDir.pictures } : CopyOp).size := by
  exact ⟨rfl, rfl, by decide⟩

/-- C6 amended: after each operation the progress counter is advanced
by the actual bytes written for a success or a conflict, and by the
operation's declared size for a failure; it never decreases. -/
theorem C6_progress_increment_amended (op : CopyOp) (fs : FSModel)
    (r : CopyResult) (p : Nat) :
    (∀ fs2 bytes, try_copy_atomic fs op.source op.dest = .ok (fs2, bytes) →
      (copy_file op fs r p).2.2 = p + bytes) ∧
    (∀ rp fs2 bytes,
      try_copy_atomic fs op.source op.dest = .error .alreadyExists →
      write_to_restore_path fs op.source op.dest = .ok (rp, fs2, bytes) →
      (copy_file op fs r p).2.2 = p + bytes) ∧
    (∀ e, try_copy_atomic fs op.source op.dest = .error e →
      e ≠ IOErrorKind.alreadyExists → (copy_file op fs r p).2.2 = p + op.size) ∧
    (∀ e, try_copy_atomic fs op.source op.dest = .error .alreadyExists →
      write_to_restore_path fs op.source op.dest = .error e →
      (copy_file op fs r p).2.2 = p + op.size) ∧
    p ≤ (copy_file op fs r p).2.2 := by
  refine ⟨?_, ?_, ?_, ?_, ?_⟩
  · intro fs2 bytes h
    simp [copy_file, h]
  · intro rp fs2 bytes h hw
    simp [copy_file, h, hw]
  · intro e h hne
    cases e with
    | alreadyExists => exact absurd rfl hne
    | notFound => simp [copy_file, h]
  · intro e h hw
    simp [copy_file, h, hw]
  · cases h : try_copy_atomic fs op.source op.dest with
    | ok v =>
      simp only [copy_file, h]
      omega
    | error e =>
      cases e with
      | notFound =>
        simp only [copy_file, h]
        omega
      | alreadyExists =>
        cases hw : write_to_restore_path fs op.source op.dest with
        | ok w =>
          simp only [copy_file, h, hw]
          omega
        | error e2 =>
          simp only [copy_file, h, hw]
          omega

/-- Witness for the amended C6 at a successful 3-byte copy declared 5. -/
theorem C6_progress_increment_amended_witness :
    try_copy_atomic photoFS "backup/photo.jpg" "home/photo.jpg" =
      .ok (fsWrite photoFS "home/photo.jpg" "new", 3) ∧
    (copy_file { source := "backup/photo.jpg", dest := "home/photo.jpg",
                 size := 5, xdg_dir := XdgDir.pictures }
      photoFS emptyResult 0).2.2 = 0 + 3 := by
  refine ⟨rfl, ?_⟩
  exact (C6_progress_increment_amended
    { source := "backup/photo.jpg", dest := "home/photo.jpg",
      size := 5, xdg_dir := XdgDir.pictures } photoFS emptyResult 0).1
    (fsWrite photoFS "home/photo.jpg" "new") 3 rfl

/-- C7: with both the restore-path file and the original present,
*adopt-new* (`overwrite`) moves the restored content onto the original path
and removes the restore file, *keep-original* deletes the restore file and
leaves the original unchanged, and *leave-both* does nothing. -/
theorem C7_resolution_dispositions (fs : FSModel) (c : Conflict)
    (origContent restoreContent : String)
    (horig : fsGet fs c.original_path = some origContent)
    (hres : fsGet fs c.restore_path = some restoreContent)
    (hne : c.restore_path ≠ c.original_path) :
    (∃ fs2, apply_resolution fs c .overwrite = .ok fs2 ∧
       fsGet fs2 c.original_path = some restoreContent ∧
       fsGet fs2 c.restore_path = none) ∧
    (∃ fs2, apply_resolution fs c .keepOriginal = .ok fs2 ∧
       fsGet fs2 c.original_path = some origContent ∧
       fsGet fs2 c.restore_path = none) ∧
    apply_resolution fs c .leaveAsIs = .ok fs := by
  have hne' : c.original_path ≠ c.restore_path := fun h => hne h.symm
  refine ⟨?_, ?_, rfl⟩
  · refine ⟨fsWrite (fsRemoveFile (fsRemoveFile fs c.restore_path)
      c.original_path) c.original_path restoreContent, ?_, ?_, ?_⟩
    · simp [apply_resolution, fsRename, hres]
    · rw [fsGet_fsWrite]
      simp
    · rw [fsGet_fsWrite]
      rw [if_neg hne']
      rw [fsGet_fsRemoveFile, if_neg hne']
      rw [fsGet_fsRemoveFile, if_pos rfl]
  · refine ⟨fsRemoveFile fs c.restore_path, ?_, ?_, ?_⟩
    · simp [apply_resolution, hres]
    · rw [fsGet_fsRemoveFile, if_neg hne]
      exact horig
    · rw [fsGet_fsRemoveFile, if_pos rfl]

/-- Witness for C7 at the pre-populated collision scenario. -/
theorem C7_resolution_dispositions_witness :
    fsGet photoCollisionFS "Pictures/photo.jpg" = some "data1" ∧
    fsGet photoCollisionFS "Pictures/photo.restore.jpg" = some "data2" ∧
    (∃ fs2, apply_resolution photoCollisionFS
        { restore_path := "Pictures/photo.restore.jpg",
          original_path := "Pictures/photo.jpg", size := 5,
          xdg_dir := XdgDir.pictures } .overwrite = .ok fs2 ∧
       fsGet fs2 "Pictures/photo.jpg" = some "data2" ∧
       fsGet fs2 "Pictures/photo.restore.jpg" = none) := by
  refine ⟨rfl, rfl, ?_⟩
  exact (C7_resolution_dispositions photoCollisionFS
    { restore_path := "Pictures/photo.restore.jpg",
      original_path := "Pictures/photo.jpg", size := 5,
      xdg_dir := XdgDir.pictures } "data1" "data2" (by decide) (by decide)
    (by decide)).1

/-- C8 counterexample: the claim says re-applying *leave-both* with the
restore file gone returns a file-not-found failure; the code performs no
filesystem action for `LeaveAsIs` and returns `Ok` even then. -/
theorem C8_leave_both_silently_succeeds_counterexample :
    fsGet photoFS "Pictures/photo.restore.jpg" = none ∧
    apply_resolution photoFS
      { restore_path := "Pictures/photo.restore.jpg",
        original_path := "Pictures/photo.jpg", size := 3,
        xdg_dir := XdgDir.pictures } Resolution.leaveAsIs = .ok photoFS :=
  ⟨rfl, rfl⟩

/-- C8 amended: re-applying *keep-original* to a conflict whose
restore-path file no longer exists fails with file-not-found; *leave-both*
performs no filesystem action and succeeds even then. -/
theorem C8_keep_original_fails_leave_both_noop (fs : FSModel) (c : Conflict)
    (hmissing : fsGet fs c.restore_path = none) :
    apply_resolution fs c .keepOriginal = .error .notFound ∧
    apply_resolution fs c .leaveAsIs = .ok fs := by
  constructor
  · simp [apply_resolution, hmissing]
  · rfl

/-- Witness for the amended C8 at a conflict whose restore file is gone. -/
theorem C8_keep_original_fails_leave_both_noop_witness :
    fsGet photoFS "Pictures/photo.restore.jpg" = none ∧
    apply_resolution photoFS
      { restore_path := "Pictures/photo.restore.jpg",
        original_path := "Pictures/photo.jpg", size := 3,
        xdg_dir := XdgDir.pictures } .keepOriginal = .error .notFound := by
  refine ⟨rfl, ?_⟩
  exact (C8_keep_original_fails_leave_both_noop photoFS
    { restore_path := "Pictures/photo.restore.jpg",
      original_path := "Pictures/photo.jpg", size := 3,
      xdg_dir := XdgDir.pictures } rfl).1

/-- C9: an operation whose initial exclusive create fails for a reason
other than `AlreadyExists` yields exactly one failure record, leaves the
filesystem untouched and is not retried; inserting it into a plan changes
no other operation's outcome — the final filesystem, success list and
conflict list are those of the plan without it, and the error list gains
exactly the one record. -/
theorem C9_non_exists_failure_isolated (fs : FSModel) (l1 l2 : List CopyOp)
    (bad : CopyOp) (e : IOErrorKind)
    (hfail : try_copy_atomic (runOps fs emptyResult 0 l1).1 bad.source bad.dest
      = .error e)
    (hne : e ≠ IOErrorKind.alreadyExists) :
    (∀ (r : CopyResult) (p : Nat),
      copy_file bad (runOps fs emptyResult 0 l1).1 r p =
        ((runOps fs emptyResult 0 l1).1,
         { r with errors := r.errors ++
             [{ source := bad.source, dest := bad.dest, error := e,
                xdg_dir := bad.xdg_dir }] },
         p + bad.size)) ∧
    (runOps fs emptyResult 0 (l1 ++ bad :: l2)).1 =
      (runOps fs emptyResult 0 (l1 ++ l2)).1 ∧
    (runOps fs emptyResult 0 (l1 ++ bad :: l2)).2.1.copied =
      (runOps fs emptyResult 0 (l1 ++ l2)).2.1.copied ∧
    (runOps fs emptyResult 0 (l1 ++ bad :: l2)).2.1.conflicts =
      (runOps fs emptyResult 0 (l1 ++ l2)).2.1.conflicts ∧
    (runOps fs emptyResult 0 (l1 ++ bad :: l2)).2.1.errors =
      (runOps fs emptyResult 0 l1).2.1.errors ++
        { source := bad.source, dest := bad.dest, error := e,
          xdg_dir := bad.xdg_dir } ::
        (runOps (runOps fs emptyResult 0 l1).1 emptyResult 0 l2).2.1.errors ∧
    (runOps fs emptyResult 0 (l1 ++ l2)).2.1.errors =
      (runOps fs emptyResult 0 l1).2.1.errors ++
        (runOps (runOps fs emptyResult 0 l1).1 emptyResult 0 l2).2.1.errors := by
  have ha : ∀ (r : CopyResult) (p : Nat),
      copy_file bad (runOps fs emptyResult 0 l1).1 r p =
        ((runOps fs emptyResult 0 l1).1,
         { r with errors := r.errors ++
             [{ source := bad.source, dest := bad.dest, error := e,
                xdg_dir := bad.xdg_dir }] },
         p + bad.size) := by
    intro r p
    cases e with
    | alreadyExists => exact absurd rfl hne
    | notFound => simp [copy_file, hfail]
  have hwith : runOps fs emptyResult 0 (l1 ++ bad :: l2) =
      runOps (runOps fs emptyResult 0 l1).1
        { (runOps fs emptyResult 0 l1).2.1 with
          errors := (runOps fs emptyResult 0 l1).2.1.errors ++
            [{ source := bad.source, dest := bad.dest, error := e,
               xdg_dir := bad.xdg_dir }] }
        ((runOps fs emptyResult 0 l1).2.2 + bad.size) l2 := by
    rw [runOps_append l1 (bad :: l2) fs emptyResult 0]
    simp only [runOps]
    rw [ha]
  have hwithout : runOps fs emptyResult 0 (l1 ++ l2) =
      runOps (runOps fs emptyResult 0 l1).1 (runOps fs emptyResult 0 l1).2.1
        (runOps fs emptyResult 0 l1).2.2 l2 :=
    runOps_append l1 l2 fs emptyResult 0
  refine ⟨ha, ?_, ?_, ?_, ?_, ?_⟩
  · rw [hwith, hwithout, runOps_frame l2, runOps_frame l2
      (runOps fs emptyResult 0 l1).1 (runOps fs emptyResult 0 l1).2.1]
  · rw [hwith, hwithout, runOps_frame l2, runOps_frame l2
      (runOps fs emptyResult 0 l1).1 (runOps fs emptyResult 0 l1).2.1]
  · rw [hwith, hwithout, runOps_frame l2, runOps_frame l2
      (runOps fs emptyResult 0 l1).1 (runOps fs emptyResult 0 l1).2.1]
  · rw [hwith, runOps_frame l2]
    simp
  · rw [hwithout, runOps_frame l2]

/-- Witness for C9: a missing-source operation between two live ones. -/
theorem C9_non_exists_failure_isolated_witness :
    try_copy_atomic (runOps photoFS emptyResult 0 [photoOp]).1
      "backup/gone.txt" "home/gone.txt" = .error IOErrorKind.notFound ∧
    (runOps photoFS emptyResult 0
      ([photoOp] ++ { source := "backup/gone.txt", dest := "home/gone.txt",
                      size := 9, xdg_dir := XdgDir.documents } ::
        [{ source := "backup/photo.jpg", dest := "home/photo2.jpg",
           size := 3, xdg_dir := XdgDir.pictures }])).2.1.copied =
    (runOps photoFS emptyResult 0
      ([photoOp] ++ [{ source := "backup/photo.jpg", dest := "home/photo2.jpg",
                       size := 3, xdg_dir := XdgDir.pictures }])).2.1.copied := by
  refine ⟨rfl, ?_⟩
  exact (C9_non_exists_failure_isolated photoFS [photoOp]
    [{ source := "backup/photo.jpg", dest := "home/photo2.jpg",
       size := 3, xdg_dir := XdgDir.pictures }]
    { source := "backup/gone.txt", dest := "home/gone.txt",
      size := 9, xdg_dir := XdgDir.documents }
    IOErrorKind.notFound rfl (by decide)).2.2.1

/-- C10: in every aggregate returned by `execute_plan`, `bytes_copied`
equals the sum of the success records' sizes plus the conflict records'
sizes; failures contribute nothing. -/
theorem C10_bytes_copied_is_sum_of_record_sizes (fs fs' : FSModel)
    (plan : CopyPlan) (jobs : Nat) (sched : List CopyOp) (r : CopyResult)
    (prog : Nat)
    (hexec : execute_plan fs plan jobs sched = .ok (fs', r, prog)) :
    r.bytes_copied = (r.copied.map CopiedFile.size).sum +
      (r.conflicts.map Conflict.size).sum := by
  simp only [execute_plan] at hexec
  cases hd : createDirs fs plan.dirs with
  | error e =>
    rw [hd] at hexec
    exact absurd hexec (by simp)
  | ok fs0 =>
    rw [hd] at hexec
    have h2 : runOps fs0 emptyResult 0 sched = (fs', r, prog) := by
      simpa using hexec
    have h3 := runOps_bytes sched fs0
    rw [h2] at h3
    simpa using h3

/-- Witness for C10 at a plan with one conflict and one failure. -/
theorem C10_bytes_copied_is_sum_of_record_sizes_witness :
    execute_plan photoFS
        { dirs := [],
          files := [photoOp, { source := "backup/gone.txt", dest := "home/gone.txt",
                               size := 9, xdg_dir := XdgDir.documents }],
          total_bytes := 12 } 1
        [photoOp, { source := "backup/gone.txt", dest := "home/gone.txt",
                    size := 9, xdg_dir := XdgDir.documents }] =
      .ok (fsWrite photoFS "Pictures/photo.restore.jpg" "new",
           { copied := [],
             conflicts := [{ restore_path := "Pictures/photo.restore.jpg",
                             original_path := "Pictures/photo.jpg", size := 3,
                             xdg_dir := XdgDir.pictures }],
             errors := [{ source := "backup/gone.txt", dest := "home/gone.txt",
                          error := IOErrorKind.notFound,
                          xdg_dir := XdgDir.documents }],
             bytes_copied := 3 }, 12) ∧
    (3 : Nat) =
      ((([] : List CopiedFile)).map CopiedFile.size).sum +
      (([{ restore_path := "Pictures/photo.restore.jpg",
           original_path := "Pictures/photo.jpg", size := 3,
           xdg_dir := XdgDir.pictures }] : List Conflict).map Conflict.size).sum := by
  refine ⟨rfl, ?_⟩
  exact C10_bytes_copied_is_sum_of_record_sizes photoFS
    (fsWrite photoFS "Pictures/photo.restore.jpg" "new")
    { dirs := [],
      files := [photoOp, { source := "backup/gone.txt", dest := "home/gone.txt",
                           size := 9, xdg_dir := XdgDir.documents }],
      total_bytes := 12 } 1
    [photoOp, { source := "backup/gone.txt", dest := "home/gone.txt",
                size := 9, xdg_dir := XdgDir.documents }] _ 12 rfl

end BackupRestore
